import Mathlib

/-!
Verification of the h5go type-descriptor / dataspace-selection core.

Shallow embedding of the Go sources (packages `core`, `h5s`, `h5t`) into
Lean 4.  The HDF5 C library itself is an external collaborator of the
repository; where a Go function merely forwards arguments to a C call,
the embedding records the arguments of that call (the observable
boundary), and where a claim depends on engine-side behaviour that the
spec describes (the enum symbol table), a definition modelled from the
spec's words stands in for the engine.
-/

namespace H5Go

/-! ## core/share.go -/

/-- Embeds the Go struct `status` of core/share.go: a numeric engine
status together with the (already `Sprintf`-formatted) context string. -/
structure EngineStatus where
  num : Int
  context : String
deriving Repr, DecidableEq

/-- Embeds `core.Status` (core/share.go lines 38-46): a negative code
becomes a `status` error carrying the code and the formatted context,
a non-negative code becomes `nil` (here `none`). -/
def Status (code : Int) (context : String) : Option EngineStatus :=
  if code < 0 then some ⟨code, context⟩ else none

/-- Embeds `(*status).Error` (core/share.go lines 58-61):
`fmt.Sprintf("Error while %s [status: %v]", self.context, self.num)`. -/
def EngineStatus.errorText (s : EngineStatus) : String :=
  "Error while " ++ s.context ++ " [status: " ++ toString s.num ++ "]"

/-- Renders `core.Status` as the Go error message (or `none` for nil). -/
def statusErr (code : Int) (context : String) : Option String :=
  (Status code context).map EngineStatus.errorText

/-! ## h5s.go: selection operators and hyperslab methods -/

/-- The `OP` type of h5s.go: an integer selection operator. -/
abbrev OP := Int

-- Values of the H5S_seloper_t enumeration from the HDF5 public header,
-- which h5s.go imports via cgo.
def SET : OP := 0
def OR : OP := 1
def AND : OP := 2
def XOR : OP := 3
def NOTB : OP := 4
def NOTA : OP := 5
def APPEND : OP := 6
def PREPEND : OP := 7

/-- The argument tuple a hyperslab method hands to the engine's
`H5Sselect_hyperslab` call: the operator and the four coordinate lists. -/
structure SlabCall where
  op : OP
  start : List Nat
  stride : List Nat
  count : List Nat
  block : List Nat
deriving Repr, DecidableEq

/-- Embeds `Hyperslab.Ref` (h5s.go lines 193-200): forwards the operator
and coordinates to `H5Sselect_hyperslab`. -/
def hyperslabRef (op : OP) (start stride count block : List Nat) : SlabCall :=
  ⟨op, start, stride, count, block⟩

/-- Embeds `Hyperslab.Set` (h5s.go line 203). -/
def hyperslabSet (start stride count block : List Nat) : SlabCall :=
  hyperslabRef SET start stride count block

/-- Embeds `Hyperslab.Union` (h5s.go line 208). -/
def hyperslabUnion (start stride count block : List Nat) : SlabCall :=
  hyperslabRef OR start stride count block

/-- Embeds `Hyperslab.XUnion` (h5s.go line 213). -/
def hyperslabXUnion (start stride count block : List Nat) : SlabCall :=
  hyperslabRef XOR start stride count block

/-- Embeds `Hyperslab.Inter` (h5s.go line 218). -/
def hyperslabInter (start stride count block : List Nat) : SlabCall :=
  hyperslabRef AND start stride count block

/-- Embeds `Hyperslab.Neg` (h5s.go line 223): the source passes `OR`. -/
def hyperslabNeg (start stride count block : List Nat) : SlabCall :=
  hyperslabRef OR start stride count block

/-- Embeds `Hyperslab.Excl` (h5s.go line 228): the source passes `OR`. -/
def hyperslabExcl (start stride count block : List Nat) : SlabCall :=
  hyperslabRef OR start stride count block

/-! ## h5s.go: CreateSimple -/

/-- `H5S_UNLIMITED` from the HDF5 public header: `(hsize_t)(-1)` with
`hsize_t` an unsigned 64-bit integer. -/
def H5S_UNLIMITED : Nat := 2 ^ 64 - 1

/-- The per-entry max-extent conversion inside `CreateSimple`
(h5s.go lines 154-160): a negative entry becomes
`0xffffffff & H5S_UNLIMITED`, a non-negative one is cast to `hsize_t`. -/
def normMax (m : Int) : Nat :=
  if m < 0 then Nat.land 0xffffffff H5S_UNLIMITED else m.toNat

/-- The dims/maxdims pair `CreateSimple` hands to `H5Screate_simple`;
the engine builds the dataspace with exactly these current and maximum
extents (`none` maxs means the maximum equals the current extent). -/
structure SimpleArgs where
  dims : List Nat
  maxs : Option (List Nat)
deriving Repr, DecidableEq

/-- Embeds `CreateSimple` (h5s.go lines 142-165): converts the shape,
rejects a max list of mismatched length, converts each max entry with
`normMax`, and calls `H5Screate_simple` on the result. -/
def CreateSimple (shape : List Int) (maxs : Option (List Int)) :
    Except String SimpleArgs :=
  match maxs with
  | none => .ok ⟨shape.map Int.toNat, none⟩
  | some ms =>
    if ms.length ≠ shape.length then
      .error ("Invalid max length: expecting " ++ toString shape.length ++
        ", got " ++ toString ms.length ++ " instead.")
    else
      .ok ⟨shape.map Int.toNat, some (ms.map normMax)⟩

/-! ## Decoders (h5s.go Decode, h5t.go Decode)

Each decoder is parametrised by the engine's decode routine `dec`
(`H5Sdecode` resp. `H5Tdecode`), which returns a handle.  The result
records the returned handle, the Go error, and how many times the
engine routine was invoked. -/

/-- Opaque encoded bytes; their contents are never interpreted by the
wrappers. -/
abbrev Bytes := List Nat

/-- Embeds `h5s.Decode` (h5s.go lines 111-117): a non-empty input is
passed to `H5Sdecode` and its status is checked; an empty input yields
handle `-1` and the error `Empty array` without invoking the engine. -/
def h5sDecode (dec : Bytes → Int) (bin : Bytes) : Int × Option String × Nat :=
  if bin.length > 0 then
    let id := dec bin
    (id, statusErr id "decoding dataspace", 1)
  else
    (-1, some "Empty array", 0)

/-- Embeds `h5t.Decode` (h5t.go lines 243-249).  The source invokes
`try(Datatype(C.H5Tdecode(...)), ...)` on a non-empty input but discards
the result (there is no `return` on that line), then unconditionally
returns `-1` and the `Empty array` error. -/
def h5tDecode (dec : Bytes → Int) (bin : Bytes) : Int × Option String × Nat :=
  if bin.length > 0 then
    let _ := dec bin
    (-1, some "Empty array", 1)
  else
    (-1, some "Empty array", 0)

/-! ## h5t.go: enumerations -/

/-- The symbol table of an engine-side enum datatype: an ordered list of
(name, value) pairs, values already reduced to the enum's width. -/
abbrev EnumEntries := List (String × Nat)

/-- Modelled from the spec: the engine's `H5Tenum_insert`
(an HDF5 library routine, outside this repository) appends the
(symbol name, unsigned integer value) pair to the enum's ordered set;
names are unique, values need not be. -/
def h5TenumInsert (st : EnumEntries) (name : String) (v : Nat) :
    Except String EnumEntries :=
  if st.any (fun e => e.1 = name) then .error "adding enum value"
  else .ok (st ++ [(name, v)])

/-- Modelled from the spec: the engine's `H5Tenum_nameof`
(an HDF5 library routine, outside this repository) looks the value up
by exact match and returns the first matching symbol's name. -/
def h5TenumNameof (st : EnumEntries) (v : Nat) : Except String String :=
  match st.find? (fun e => e.2 = v) with
  | some e => .ok e.1
  | none => .error "getting enum name"

/-- Embeds `enum8.Insert` (h5t.go lines 616-620): `this := uint8(val)`
trims the value to 8 bits before handing it to `enumset`. -/
def enum8Insert (st : EnumEntries) (name : String) (val : Nat) :
    Except String EnumEntries :=
  h5TenumInsert st name (val % 2 ^ 8)

/-- Embeds `enum8.NameOf` (h5t.go lines 623-626). -/
def enum8NameOf (st : EnumEntries) (v : Nat) : Except String String :=
  h5TenumNameof st (v % 2 ^ 8)

/-- Embeds `enum16.Insert` (h5t.go lines 636-640). -/
def enum16Insert (st : EnumEntries) (name : String) (val : Nat) :
    Except String EnumEntries :=
  h5TenumInsert st name (val % 2 ^ 16)

/-- Embeds `enum16.NameOf` (h5t.go lines 643-646). -/
def enum16NameOf (st : EnumEntries) (v : Nat) : Except String String :=
  h5TenumNameof st (v % 2 ^ 16)

/-- Embeds `enum32.Insert` (h5t.go lines 656-660). -/
def enum32Insert (st : EnumEntries) (name : String) (val : Nat) :
    Except String EnumEntries :=
  h5TenumInsert st name (val % 2 ^ 32)

/-- Embeds `enum32.NameOf` (h5t.go lines 663-666). -/
def enum32NameOf (st : EnumEntries) (v : Nat) : Except String String :=
  h5TenumNameof st (v % 2 ^ 32)

/-- Embeds `enum64.Insert` (h5t.go lines 676-680): `this := uint64(val)`
is the identity on a `uint64` argument. -/
def enum64Insert (st : EnumEntries) (name : String) (val : Nat) :
    Except String EnumEntries :=
  h5TenumInsert st name val

/-- Embeds `enum64.NameOf` (h5t.go lines 683-686). -/
def enum64NameOf (st : EnumEntries) (v : Nat) : Except String String :=
  h5TenumNameof st v

/-! ## h5s.go: Points.Ref

`Points.Ref` flattens the coordinate tuples into a buffer sized
`len(coords)*len(coords[0])`, writing through a running index `k`; a
write at an index outside the buffer is a Go runtime panic, modelled
here as `none`. -/

/-- A single Go slice store `c[k] = x`: in bounds it updates, out of
bounds it panics (`none`). -/
def writeAt (buf : List Nat) (k : Nat) (x : Nat) : Option (List Nat) :=
  if k < buf.length then some (buf.set k x) else none

/-- The inner loop of `Points.Ref` (h5s.go lines 246-249): writes one
tuple's coordinates at consecutive indices. -/
def fillPoint : List Nat → List Nat → Nat → Option (List Nat × Nat)
  | [], buf, k => some (buf, k)
  | x :: xs, buf, k =>
    match writeAt buf k x with
    | some buf2 => fillPoint xs buf2 (k + 1)
    | none => none

/-- The outer loop of `Points.Ref` (h5s.go lines 245-250): writes every
tuple in order, threading the running index. -/
def fillCoords : List (List Nat) → List Nat → Nat → Option (List Nat × Nat)
  | [], buf, k => some (buf, k)
  | p :: ps, buf, k =>
    match fillPoint p buf k with
    | some (buf2, k2) => fillCoords ps buf2 k2
    | none => none

/-- The argument tuple `Points.Ref` hands to `H5Sselect_elements`. -/
structure ElemCall where
  op : OP
  npoints : Nat
  buf : List Nat
deriving Repr, DecidableEq

/-- Embeds `Points.Ref` (h5s.go lines 239-257): an empty coordinate
list returns success (`some none`) without calling the engine;
otherwise a buffer of `len(coords)*len(coords[0])` zeros is filled by
the two nested loops and passed to `H5Sselect_elements`.  An
out-of-bounds write (a Go panic) is `none`. -/
def pointsRef (op : OP) (coords : List (List Nat)) : Option (Option ElemCall) :=
  match coords with
  | [] => some none
  | c0 :: rest =>
    let n := (c0 :: rest).length
    match fillCoords (c0 :: rest) (List.replicate (n * c0.length) 0) 0 with
    | some (buf, _) => some (some ⟨op, n, buf⟩)
    | none => none

/-! ## h5t.go: the derivation engine

`parse` walks a Go structural type (`reflect.Type`) depth-first and
builds an engine datatype.  The engine-side datatype a handle denotes is
modelled as the descriptor tree `H5T`; the Go-side result of
`parse`/`structure`/`array` is either such a descriptor or the pair
`(-1, err)` the source returns on failure. -/

/-- The engine datatype a derivation handle denotes. -/
inductive H5T where
  | intT (bytes : Nat) (signed : Bool)
  | floatT (bytes : Nat)
  | stringT (fixedLen : Option Nat) (utf8 : Bool)
  | boolT
  | compound (size : Nat) (fields : List (String × Nat × H5T))
  | ndarray (dims : List Nat) (elem : H5T)
  | vlen (elem : H5T)

/-- The `(Datatype, error)` pair returned by the derivation functions:
either a descriptor, or the handle (always `-1` in the source) together
with the error message. -/
inductive PResult where
  | ok (t : H5T)
  | err (handle : Int) (msg : String)

mutual
/-- A Go structural type as seen by `reflect` in h5t.go's walk. -/
inductive GoType where
  | int8 | int16 | int32 | int64
  | uint8 | uint16 | uint32 | uint64
  | float32 | float64 | complex64 | complex128
  | bool | string
  | array (len : Nat) (elem : GoType)
  | slice (elem : GoType)
  | map (key val : GoType)
  | strct (size : Nat) (fields : List GoField)
  | chan | func | invalid
  | uintptr | unsafePointer
  | ptr (elem : GoType)

/-- A struct member as seen by `reflect`: its name, the values of its
`hdf` and `hdftype` tags (`""` when absent), its type and its byte
offset in the host struct's in-memory layout. -/
inductive GoField where
  | mk (fname hdf hdftype : String) (typ : GoType) (offset : Nat)
end

/-- The member name. -/
def GoField.fname : GoField → String
  | .mk n _ _ _ _ => n

/-- The `hdf` struct tag (`""` when absent). -/
def GoField.hdf : GoField → String
  | .mk _ h _ _ _ => h

/-- The `hdftype` struct tag (`""` when absent). -/
def GoField.hdftype : GoField → String
  | .mk _ _ ht _ _ => ht

/-- The member's type. -/
def GoField.typ : GoField → GoType
  | .mk _ _ _ t _ => t

/-- The member's byte offset in the host layout. -/
def GoField.offset : GoField → Nat
  | .mk _ _ _ _ o => o

/-- The naming context: resolving a committed named type by path
(`h5t.Open` against the supplied location) either finds a datatype or
fails. -/
abbrev Ctxt := String → Option H5T

/-- Embeds `h5t.Open` as used by `structure` for an `hdftype` tag: a
successful lookup yields the committed datatype, a failed one yields a
negative handle and an error. -/
def openT (c : Ctxt) (name : String) : PResult :=
  match c name with
  | some t => .ok t
  | none => .err (-1) ("opening saved datatype " ++ name)

/-- The dimension-peeling loop of `array` (h5t.go lines 743-749):
collects the extents of the nested fixed-size array layers in nesting
order and returns the first non-array element type. -/
def peel : GoType → List Nat × GoType
  | .array n elem =>
    let p := peel elem
    (n :: p.1, p.2)
  | t => ([], t)

/-- `isArr t = true` exactly when `t` is a fixed-size array type. -/
def GoType.isArr : GoType → Bool
  | .array _ _ => true
  | _ => false

theorem sizeOf_peel : ∀ (t : GoType), sizeOf (peel t).2 ≤ sizeOf t
  | .int8 | .int16 | .int32 | .int64 => Nat.le_refl _
  | .uint8 | .uint16 | .uint32 | .uint64 => Nat.le_refl _
  | .float32 | .float64 | .complex64 | .complex128 => Nat.le_refl _
  | .bool | .string => Nat.le_refl _
  | .slice _ | .map _ _ | .strct _ _ => Nat.le_refl _
  | .chan | .func | .invalid => Nat.le_refl _
  | .uintptr | .unsafePointer | .ptr _ => Nat.le_refl _
  | .array n elem => by
    have ih := sizeOf_peel elem
    simp [peel]
    omega

mutual
/-- Embeds `parse` (h5t.go lines 814-842) together with `atomic`,
`array` and `slice`: the depth-first walk over the structural type.
Fixed-size arrays route through the peeling loop and a single
`H5Tarray_create2` call; slices become variable-length lists; maps,
channels, functions, invalid types and raw pointers abort with `-1`
and an error; pointers are dereferenced; structs go through
`structure`.  Atomic kinds map to their leaf datatypes (a complex
number is the two-field `re`/`im` compound built by
`Complex64`/`Complex128`). -/
def parse (c : Ctxt) : GoType → PResult
  | .int8 => .ok (.intT 1 true)
  | .int16 => .ok (.intT 2 true)
  | .int32 => .ok (.intT 4 true)
  | .int64 => .ok (.intT 8 true)
  | .uint8 => .ok (.intT 1 false)
  | .uint16 => .ok (.intT 2 false)
  | .uint32 => .ok (.intT 4 false)
  | .uint64 => .ok (.intT 8 false)
  | .float32 => .ok (.floatT 4)
  | .float64 => .ok (.floatT 8)
  | .complex64 =>
    .ok (.compound 8 [("re", 0, .floatT 4), ("im", 4, .floatT 4)])
  | .complex128 =>
    .ok (.compound 16 [("re", 0, .floatT 8), ("im", 8, .floatT 8)])
  | .bool => .ok .boolT
  | .string => .ok (.stringT none true)
  | .array n elem =>
    match parse c (peel elem).2 with
    | .err _ m => .err (-1) m
    | .ok t => .ok (.ndarray (n :: (peel elem).1) t)
  | .slice elem =>
    match parse c elem with
    | .err _ m => .err (-1) m
    | .ok t => .ok (.vlen t)
  | .map _ _ => .err (-1) "Maps are not serializable"
  | .strct size fields =>
    match fieldsP c fields with
    | .error m => .err (-1) m
    | .ok l => .ok (.compound size l)
  | .chan => .err (-1) "chan not HDF serializable"
  | .func => .err (-1) "func not HDF serializable"
  | .invalid => .err (-1) "invalid not HDF serializable"
  | .uintptr => .err (-1) "Unsafe ptr not supported"
  | .unsafePointer => .err (-1) "Unsafe ptr not supported"
  | .ptr elem => parse c elem
termination_by t => sizeOf t
decreasing_by
  all_goals simp_wf
  all_goals have hsp := sizeOf_peel elem
  all_goals omega

/-- Embeds the member loop of `structure` (h5t.go lines 785-808): an
`hdf:"ignore"` member is skipped; any other non-empty `hdf` tag
replaces the stored name; an `hdftype` tag resolves the member type via
the naming context, otherwise the member type is parsed structurally;
the first failure aborts with that error; a surviving member
contributes `(name, offset, type)` in declaration order. -/
def fieldsP (c : Ctxt) :
    List GoField → Except String (List (String × Nat × H5T))
  | [] => .ok []
  | .mk fname hdf hdftype typ offset :: rest =>
    if hdf = "ignore" then fieldsP c rest
    else
      let stored := if hdf = "" then fname else hdf
      let r := if hdftype = "" then parse c typ else openT c hdftype
      match r with
      | .err _ m => .error m
      | .ok t =>
        match fieldsP c rest with
        | .error m => .error m
        | .ok l => .ok ((stored, offset, t) :: l)
termination_by fs => sizeOf fs
decreasing_by
  all_goals simp_wf
  all_goals omega
end

/-- Embeds `structure` itself (h5t.go lines 781-811): the member loop
followed by `Struct(v.Size(), fields...)`, which packs the members into
a compound of the host type's size. -/
def structureP (c : Ctxt) (size : Nat) (fields : List GoField) : PResult :=
  parse c (.strct size fields)

/-- The empty naming context: no committed named types. -/
def emptyCtxt : Ctxt := fun _ => none

/-- Builds the nested Go array type `[d1][d2]...[dk]base`. -/
def nestArr : List Nat → GoType → GoType
  | [], base => base
  | n :: ds, base => .array n (nestArr ds base)

/-- The types the walk of `parse` can hit and fail on, mirrored on the
walk itself: the unserializable kinds, a failing `hdftype` lookup in a
non-ignored struct member, and closure under the positions the walk
actually visits (array element chains, slice elements, pointer
targets, and the structurally-derived non-ignored struct members). -/
inductive Bad (c : Ctxt) : GoType → Prop
  | mapBad {k v} : Bad c (.map k v)
  | chanBad : Bad c .chan
  | funcBad : Bad c .func
  | invalidBad : Bad c .invalid
  | uintptrBad : Bad c .uintptr
  | unsafeBad : Bad c .unsafePointer
  | arrayBad {n elem} : Bad c elem → Bad c (.array n elem)
  | sliceBad {elem} : Bad c elem → Bad c (.slice elem)
  | ptrBad {elem} : Bad c elem → Bad c (.ptr elem)
  | fieldBad {size fields} (f : GoField) :
      f ∈ fields → f.hdf ≠ "ignore" → f.hdftype = "" →
      Bad c f.typ → Bad c (.strct size fields)
  | lookupBad {size fields} (f : GoField) :
      f ∈ fields → f.hdf ≠ "ignore" → f.hdftype ≠ "" →
      c f.hdftype = none → Bad c (.strct size fields)

/-- A struct type with a channel-typed member, used as a concrete
unserializable input. -/
def chanStruct : GoType := .strct 8 [.mk "f" "" "" .chan 0]

/-- A concrete struct mirroring the test struct of the repository's
top-level test file: a 2x2 int32 array member, a renamed float64
member, and an ignored slice member. -/
def exFields : List GoField :=
  [.mk "data" "" "" (.array 2 (.array 2 .int32)) 0,
   .mk "cst" "constant" "" .float64 16,
   .mk "tags" "ignore" "" (.slice .string) 24]

/-! ## Theorems -/

/-- C9: `core.Status` returns nil exactly when the code is `≥ 0`; for a
negative code it returns an error carrying the numeric code and the
formatted context string, and both the context and the code appear in
the error's message text. -/
theorem status_error_mapping (code : Int) (ctx : String) :
    (Status code ctx = none ↔ 0 ≤ code) ∧
    (code < 0 →
      Status code ctx = some ⟨code, ctx⟩ ∧
      ∃ p q r, EngineStatus.errorText ⟨code, ctx⟩ =
        p ++ ctx ++ q ++ toString code ++ r) := by
  constructor
  · unfold Status
    split
    · simp; omega
    · simp; omega
  · intro h
    refine ⟨by unfold Status; simp [h], "Error while ", " [status: ", "]", rfl⟩

/-- Witness for `status_error_mapping` at code `-5` and context
`"creating dataset at /x"`. -/
theorem status_error_mapping_witness :
    Status (-5) "creating dataset at /x" = some ⟨-5, "creating dataset at /x"⟩ ∧
    ∃ p q r, EngineStatus.errorText ⟨-5, "creating dataset at /x"⟩ =
      p ++ "creating dataset at /x" ++ q ++ toString (-5 : Int) ++ r :=
  (status_error_mapping (-5) "creating dataset at /x").2 (by decide)

/-- C2: which operator each hyperslab combination method hands to
`H5Sselect_hyperslab`.  `Set`, `Union`, `XUnion` and `Inter` pass their
documented operators, but `Neg` and `Excl` both pass `OR` — not the
`NOTA`/`NOTB` their doc comments (and the claim) state. -/
theorem hyperslab_operator_dispatch (start stride count block : List Nat) :
    (hyperslabSet start stride count block).op = SET ∧
    (hyperslabUnion start stride count block).op = OR ∧
    (hyperslabXUnion start stride count block).op = XOR ∧
    (hyperslabInter start stride count block).op = AND ∧
    (hyperslabNeg start stride count block).op = OR ∧
    (hyperslabExcl start stride count block).op = OR ∧
    OR ≠ NOTA ∧ OR ≠ NOTB :=
  ⟨rfl, rfl, rfl, rfl, rfl, rfl, by decide, by decide⟩

/-- C3: `CreateSimple([3], [-1])` succeeds, but the maximum extent it
passes to the engine for dimension 0 is `0xffffffff & H5S_UNLIMITED =
4294967295`, a finite bound that is not the `H5S_UNLIMITED` sentinel
(`2^64 - 1`), although the function's own comment promises
'unlimited'. -/
theorem createSimple_negative_max_not_unlimited :
    CreateSimple [3] (some [-1]) = .ok ⟨[3], some [4294967295]⟩ ∧
    normMax (-1) = 4294967295 ∧
    (4294967295 : Nat) ≠ H5S_UNLIMITED := by
  refine ⟨?_, by decide, by decide⟩
  unfold CreateSimple
  simp [normMax]
  decide

/-- C1: `h5t.Decode` discards the result of the `H5Tdecode` engine call
and unconditionally returns handle `-1` with the `Empty array` error,
for every engine decode routine and every input — so
`Decode(Encode(t))` never yields a datatype with a nil error, refuting
the datatype half of the round-trip law. -/
theorem h5tDecode_never_returns_decoded (dec : Bytes → Int) (bin : Bytes) :
    (h5tDecode dec bin).1 = -1 ∧
    (h5tDecode dec bin).2.1 = some "Empty array" := by
  unfold h5tDecode
  split <;> exact ⟨rfl, rfl⟩

/-- C7: both decoders, applied to an empty byte sequence, return the
`Empty array` error and the negative handle `-1` with zero invocations
of the underlying engine decode routine. -/
theorem decode_empty_input (dec : Bytes → Int) :
    h5sDecode dec [] = (-1, some "Empty array", 0) ∧
    h5tDecode dec [] = (-1, some "Empty array", 0) :=
  ⟨rfl, rfl⟩

theorem h5TenumInsert_fresh (st : EnumEntries) (name : String) (v : Nat)
    (hfresh : ∀ e ∈ st, e.1 ≠ name) :
    h5TenumInsert st name v = .ok (st ++ [(name, v)]) := by
  unfold h5TenumInsert
  have : st.any (fun e => e.1 = name) = false := by
    simp only [List.any_eq_false, decide_eq_true_eq]
    exact hfresh
  simp [this]

/-- C8: for each underlying width w of 8, 16, 32 and 64 bits,
`Insert(name, v)` hands the engine `v mod 2^w` — on a fresh name it
stores exactly that truncated value, regardless of how wide `v` is —
and `NameOf(v)` looks up `v mod 2^w`; truncation, never rejection. -/
theorem enum_insert_truncates (st : EnumEntries) (name : String) (v : Nat)
    (hv : v < 2 ^ 64) (hfresh : ∀ e ∈ st, e.1 ≠ name) :
    enum8Insert st name v = .ok (st ++ [(name, v % 2 ^ 8)]) ∧
    enum16Insert st name v = .ok (st ++ [(name, v % 2 ^ 16)]) ∧
    enum32Insert st name v = .ok (st ++ [(name, v % 2 ^ 32)]) ∧
    enum64Insert st name v = .ok (st ++ [(name, v % 2 ^ 64)]) ∧
    enum8NameOf st v = h5TenumNameof st (v % 2 ^ 8) ∧
    enum16NameOf st v = h5TenumNameof st (v % 2 ^ 16) ∧
    enum32NameOf st v = h5TenumNameof st (v % 2 ^ 32) ∧
    enum64NameOf st v = h5TenumNameof st (v % 2 ^ 64) := by
  have h64 : v % 2 ^ 64 = v := Nat.mod_eq_of_lt hv
  refine ⟨h5TenumInsert_fresh st name _ hfresh,
    h5TenumInsert_fresh st name _ hfresh,
    h5TenumInsert_fresh st name _ hfresh, ?_, rfl, rfl, rfl, ?_⟩
  · rw [h64]
    exact h5TenumInsert_fresh st name v hfresh
  · unfold enum64NameOf
    rw [h64]

/-- Witness for `enum_insert_truncates`: inserting 300 into an empty
8-bit enum stores 44 = 300 mod 256, while the 64-bit enum stores 300. -/
theorem enum_insert_truncates_witness :
    enum8Insert [] "A" 300 = .ok [("A", 44)] ∧
    enum64Insert [] "A" 300 = .ok [("A", 300)] := by
  have h := enum_insert_truncates [] "A" 300 (by decide) (by simp)
  exact ⟨h.1, h.2.2.2.1⟩

theorem fillPoint_ok (p : List Nat) : ∀ (buf : List Nat) (k : Nat),
    k + p.length ≤ buf.length →
    ∃ b2, fillPoint p buf k = some (b2, k + p.length) ∧
      b2.length = buf.length := by
  induction p with
  | nil =>
    intro buf k _
    exact ⟨buf, by simp [fillPoint], rfl⟩
  | cons x xs ih =>
    intro buf k h
    have hk : k < buf.length := by
      simp only [List.length_cons] at h; omega
    have hw : writeAt buf k x = some (buf.set k x) := by
      simp [writeAt, hk]
    obtain ⟨b2, hb2, hlen⟩ := ih (buf.set k x) (k + 1)
      (by simp only [List.length_set]; simp only [List.length_cons] at h; omega)
    refine ⟨b2, ?_, by simpa using hlen⟩
    simp only [fillPoint, hw, hb2, List.length_cons]
    congr 2
    omega

theorem fillCoords_ok (m : Nat) (ps : List (List Nat)) :
    ∀ (buf : List Nat) (k : Nat), (∀ p ∈ ps, p.length = m) →
    k + ps.length * m ≤ buf.length →
    ∃ b2, fillCoords ps buf k = some (b2, k + ps.length * m) ∧
      b2.length = buf.length := by
  induction ps with
  | nil =>
    intro buf k _ _
    exact ⟨buf, by simp [fillCoords], rfl⟩
  | cons p ps ih =>
    intro buf k huni h
    have hp : p.length = m := huni p (List.mem_cons_self p ps)
    have hmul : (p :: ps).length * m = m + ps.length * m := by
      simp [Nat.succ_mul, Nat.add_comm]
    obtain ⟨b1, hb1, hlen1⟩ := fillPoint_ok p buf k (by rw [hp]; omega)
    obtain ⟨b2, hb2, hlen2⟩ := ih b1 (k + m)
      (fun q hq => huni q (List.mem_cons_of_mem p hq))
      (by rw [hlen1]; omega)
    refine ⟨b2, ?_, by rw [hlen2, hlen1]⟩
    rw [hp] at hb1
    simp only [fillCoords, hb1, hb2, hmul]
    congr 2
    omega

/-- C10: with a non-empty coordinate list in which every tuple has the
length of the first tuple, the flattening loop of `Points.Ref` writes
exactly `len(coords) * len(coords[0])` values, every buffer index
stays in bounds (the fill succeeds), and the engine call is made; an
empty coordinate list returns success without touching the engine. -/
theorem pointsRef_uniform_safe (op : OP) (c0 : List Nat)
    (rest : List (List Nat))
    (huni : ∀ p ∈ (c0 :: rest), p.length = c0.length) :
    (∃ buf,
      fillCoords (c0 :: rest)
          (List.replicate ((c0 :: rest).length * c0.length) 0) 0 =
        some (buf, (c0 :: rest).length * c0.length) ∧
      buf.length = (c0 :: rest).length * c0.length) ∧
    (∃ call, pointsRef op (c0 :: rest) = some (some call)) ∧
    pointsRef op [] = some none := by
  obtain ⟨b2, hb2, hlen⟩ := fillCoords_ok c0.length (c0 :: rest)
    (List.replicate ((c0 :: rest).length * c0.length) 0) 0 huni
    (by simp)
  refine ⟨⟨b2, by simpa using hb2, by simpa using hlen⟩, ?_, rfl⟩
  refine ⟨⟨op, (c0 :: rest).length, b2⟩, ?_⟩
  have hb2' : fillCoords (c0 :: rest)
      (List.replicate ((rest.length + 1) * c0.length) 0) 0 =
      some (b2, (rest.length + 1) * c0.length) := by
    simpa using hb2
  simp [pointsRef, hb2']

/-- Witness for `pointsRef_uniform_safe` at the concrete coordinate
list [[1,2],[3,4]]. -/
theorem pointsRef_uniform_safe_witness :
    (∃ buf,
      fillCoords [[1, 2], [3, 4]]
          (List.replicate ([[1, 2], [3, 4]].length * [1, 2].length) 0) 0 =
        some (buf, [[1, 2], [3, 4]].length * [1, 2].length) ∧
      buf.length = [[1, 2], [3, 4]].length * [1, 2].length) ∧
    (∃ call, pointsRef SET [[1, 2], [3, 4]] = some (some call)) ∧
    pointsRef SET ([] : List (List Nat)) = some none :=
  pointsRef_uniform_safe SET [1, 2] [[3, 4]] (by decide)

theorem peel_nonArr {t : GoType} (h : t.isArr = false) : peel t = ([], t) := by
  cases t <;> simp [GoType.isArr] at h ⊢ <;> rfl

theorem fieldsP_err (c : Ctxt) (f : GoField) :
    ∀ (fields : List GoField), f ∈ fields → f.hdf ≠ "ignore" →
    (∃ hh m,
      (if f.hdftype = "" then parse c f.typ else openT c f.hdftype) =
        .err hh m) →
    ∃ m, fieldsP c fields = .error m := by
  intro fields
  induction fields with
  | nil => simp
  | cons g rest ih =>
    obtain ⟨n, h, ht, t, o⟩ := g
    intro hmem hni hres
    rcases List.mem_cons.mp hmem with hf | hmem'
    · subst hf
      simp only [GoField.hdf] at hni
      simp only [GoField.hdftype, GoField.typ] at hres
      obtain ⟨hh, m, hE⟩ := hres
      refine ⟨m, ?_⟩
      simp only [fieldsP, if_neg hni, hE]
    · by_cases hig : h = "ignore"
      · obtain ⟨m, hE⟩ := ih hmem' hni hres
        exact ⟨m, by simp only [fieldsP, if_pos hig, hE]⟩
      · cases hR : (if ht = "" then parse c t else openT c ht) with
        | err hh m =>
          exact ⟨m, by simp only [fieldsP, if_neg hig, hR]⟩
        | ok t' =>
          obtain ⟨m, hE⟩ := ih hmem' hni hres
          exact ⟨m, by simp only [fieldsP, if_neg hig, hR, hE]⟩

theorem parse_bad_aux {c : Ctxt} {T : GoType} (hb : Bad c T) :
    (∃ m, parse c T = .err (-1) m) ∧
    (∃ m, parse c (peel T).2 = .err (-1) m) := by
  induction hb with
  | mapBad =>
    rename_i k v
    have h1 : ∃ m, parse c (.map k v) = .err (-1) m :=
      ⟨"Maps are not serializable", by simp only [parse]⟩
    exact ⟨h1, h1⟩
  | chanBad =>
    have h1 : ∃ m, parse c .chan = .err (-1) m :=
      ⟨"chan not HDF serializable", by simp only [parse]⟩
    exact ⟨h1, h1⟩
  | funcBad =>
    have h1 : ∃ m, parse c .func = .err (-1) m :=
      ⟨"func not HDF serializable", by simp only [parse]⟩
    exact ⟨h1, h1⟩
  | invalidBad =>
    have h1 : ∃ m, parse c .invalid = .err (-1) m :=
      ⟨"invalid not HDF serializable", by simp only [parse]⟩
    exact ⟨h1, h1⟩
  | uintptrBad =>
    have h1 : ∃ m, parse c .uintptr = .err (-1) m :=
      ⟨"Unsafe ptr not supported", by simp only [parse]⟩
    exact ⟨h1, h1⟩
  | unsafeBad =>
    have h1 : ∃ m, parse c .unsafePointer = .err (-1) m :=
      ⟨"Unsafe ptr not supported", by simp only [parse]⟩
    exact ⟨h1, h1⟩
  | arrayBad hbe ih =>
    rename_i n elem
    obtain ⟨m, hm⟩ := ih.2
    have h1 : ∃ m', parse c (.array n elem) = .err (-1) m' :=
      ⟨m, by simp only [parse, hm]⟩
    exact ⟨h1, ⟨m, hm⟩⟩
  | sliceBad hbe ih =>
    rename_i elem
    obtain ⟨m, hm⟩ := ih.1
    have h1 : ∃ m', parse c (.slice elem) = .err (-1) m' :=
      ⟨m, by simp only [parse, hm]⟩
    exact ⟨h1, h1⟩
  | ptrBad hbe ih =>
    rename_i elem
    obtain ⟨m, hm⟩ := ih.1
    have h1 : ∃ m', parse c (.ptr elem) = .err (-1) m' :=
      ⟨m, by simp only [parse]; exact hm⟩
    exact ⟨h1, h1⟩
  | fieldBad f hmem hni htE hbt ih =>
    rename_i size fields
    obtain ⟨m, hm⟩ := ih.1
    obtain ⟨m', hE⟩ := fieldsP_err c f fields hmem hni
      ⟨-1, m, by rw [if_pos htE]; exact hm⟩
    have h1 : ∃ m'', parse c (.strct size fields) = .err (-1) m'' :=
      ⟨m', by simp only [parse, hE]⟩
    exact ⟨h1, h1⟩
  | lookupBad f hmem hni htne hnone =>
    rename_i size fields
    obtain ⟨m', hE⟩ := fieldsP_err c f fields hmem hni
      ⟨-1, "opening saved datatype " ++ f.hdftype, by
        rw [if_neg htne]; simp [openT, hnone]⟩
    have h1 : ∃ m'', parse c (.strct size fields) = .err (-1) m'' :=
      ⟨m', by simp only [parse, hE]⟩
    exact ⟨h1, h1⟩

/-- C4: whenever the depth-first walk of `parse` hits a map, channel,
function, invalid, or raw/unsafe-pointer type, or a non-ignored struct
member's `hdftype` lookup fails in the naming context (`Bad` mirrors
exactly these walk positions), `parse` returns the negative handle
`-1` with a non-nil error: the whole derivation aborts, no partial
compound descriptor is returned, and a failed named-type lookup has no
structural fallback. -/
theorem parse_aborts_on_unserializable (c : Ctxt) (T : GoType)
    (h : Bad c T) : ∃ m, parse c T = .err (-1) m :=
  (parse_bad_aux h).1

/-- Witness for `parse_aborts_on_unserializable`: a struct with a
channel-typed member derives to `-1` and an error. -/
theorem parse_aborts_on_unserializable_witness :
    Bad emptyCtxt chanStruct ∧
    ∃ m, parse emptyCtxt chanStruct = .err (-1) m := by
  have hbad : Bad emptyCtxt chanStruct :=
    Bad.fieldBad (.mk "f" "" "" .chan 0) (List.mem_cons_self _ _)
      (by decide) rfl Bad.chanBad
  exact ⟨hbad, parse_aborts_on_unserializable emptyCtxt chanStruct hbad⟩

theorem fieldsP_ok_shape (c : Ctxt) :
    ∀ (fields : List GoField) (l : List (String × Nat × H5T)),
      fieldsP c fields = .ok l →
      l.map (fun x => (x.1, x.2.1)) =
        (fields.filter (fun f => f.hdf ≠ "ignore")).map
          (fun f => (if f.hdf = "" then f.fname else f.hdf, f.offset)) := by
  intro fields
  induction fields with
  | nil =>
    intro l hl
    simp only [fieldsP] at hl
    cases hl
    simp
  | cons g rest ih =>
    obtain ⟨n, h, ht, t, o⟩ := g
    intro l hl
    by_cases hig : h = "ignore"
    · simp only [fieldsP, if_pos hig] at hl
      have := ih l hl
      simpa [List.filter_cons, GoField.hdf, hig] using this
    · simp only [fieldsP, if_neg hig] at hl
      cases hR : (if ht = "" then parse c t else openT c ht) with
      | err hh m => rw [hR] at hl; cases hl
      | ok t' =>
        rw [hR] at hl
        cases hF : fieldsP c rest with
        | error m => rw [hF] at hl; cases hl
        | ok l' =>
          rw [hF] at hl
          cases hl
          have := ih l' hF
          simp only [List.map_cons, this, List.filter_cons, GoField.hdf,
            GoField.fname, GoField.offset]
          simp [hig]

/-- C5: when struct derivation succeeds, the resulting compound has the
host type's size, and its field list is exactly the non-ignored
members in declaration order — an `hdf:"ignore"` member is excluded
entirely, a member with any other non-empty `hdf` tag is stored under
the tag string, every other member keeps its name, and each stored
field's byte offset is the member's offset in the host layout. -/
theorem structure_field_rules (c : Ctxt) (size : Nat)
    (fields : List GoField) (T : H5T)
    (h : structureP c size fields = .ok T) :
    ∃ flds, T = .compound size flds ∧
      flds.map (fun x => (x.1, x.2.1)) =
        (fields.filter (fun f => f.hdf ≠ "ignore")).map
          (fun f => (if f.hdf = "" then f.fname else f.hdf, f.offset)) := by
  unfold structureP at h
  simp only [parse] at h
  cases hF : fieldsP c fields with
  | error m => rw [hF] at h; cases h
  | ok l =>
    rw [hF] at h
    cases h
    exact ⟨l, rfl, fieldsP_ok_shape c fields l hF⟩

/-- Witness for `structure_field_rules` on the concrete struct
`exFields` (an array member, a renamed member, an ignored member). -/
theorem structure_field_rules_witness :
    ∃ flds, (H5T.compound 40
        [("data", 0, H5T.ndarray [2, 2] (H5T.intT 4 true)),
         ("constant", 16, H5T.floatT 8)]) = .compound 40 flds ∧
      flds.map (fun x => (x.1, x.2.1)) =
        (exFields.filter (fun f => f.hdf ≠ "ignore")).map
          (fun f => (if f.hdf = "" then f.fname else f.hdf, f.offset)) :=
  structure_field_rules emptyCtxt 40 exFields
    (H5T.compound 40
      [("data", 0, H5T.ndarray [2, 2] (H5T.intT 4 true)),
       ("constant", 16, H5T.floatT 8)])
    (by simp only [structureP, parse, fieldsP, peel, exFields]; simp)

theorem peel_nest (base : GoType) (hb : base.isArr = false) :
    ∀ dims, peel (nestArr dims base) = (dims, base) := by
  intro dims
  induction dims with
  | nil => simpa [nestArr] using peel_nonArr hb
  | cons n ds ih => simp [nestArr, peel, ih]

/-- C6: deriving a nested fixed-size array type `[n1][n2]...[nk]T`,
where `T` is not itself an array, produces one single `FixedArray`
descriptor whose dimension list is `n1, ..., nk` in nesting order
(outermost first) over the descriptor derived from `T` — not nested
array descriptors. -/
theorem array_flattening (c : Ctxt) (dims : List Nat) (base : GoType)
    (t : H5T) (hb : base.isArr = false) (hd : dims ≠ [])
    (hp : parse c base = .ok t) :
    parse c (nestArr dims base) = .ok (.ndarray dims t) := by
  cases dims with
  | nil => exact absurd rfl hd
  | cons n ds =>
    have hpe : peel (nestArr ds base) = (ds, base) := peel_nest base hb ds
    show parse c (.array n (nestArr ds base)) = .ok (.ndarray (n :: ds) t)
    simp only [parse, hpe, hp]

/-- Witness for `array_flattening`: `[2][3]int32` derives to the single
descriptor `ndarray [2, 3] int32`. -/
theorem array_flattening_witness :
    parse emptyCtxt (nestArr [2, 3] .int32) =
      .ok (.ndarray [2, 3] (.intT 4 true)) :=
  array_flattening emptyCtxt [2, 3] .int32 (.intT 4 true) rfl (by simp)
    (by simp only [parse])

end H5Go
